import Mathlib

/-!
Verification development for the ReactionBlitz repository (src/script.js).

The script is a single-page reaction-time game.  We give a shallow embedding
of its session state machine: the mutable fields of the `ReactionGame` class
become a `World` record, `setTimeout`/`clearTimeout` become a list of pending
timers with numeric handles, `Date.now()` readings become explicit integer
parameters of the operations that call it, and JavaScript number-or-null
values (`startTime`, `reactionTime`, `bestScore`) become the inductive
`JSVal` (null, NaN, or an integer), with JS truthiness, subtraction and
comparison modelled on it.  `localStorage` is a single optional string slot.
The single `console.error` diagnostic call of the script is recorded in an
`errorLog` field; `console.log` chatter and all DOM rendering are external
collaborators with no logic and are not modelled, except for the one piece of
logic living inside `updateUI`: entering the error state schedules a 3000 ms
auto-reset timer whose handle is not stored anywhere.
-/

set_option autoImplicit false

namespace ReactionBlitz

/-- The five values of the `GameStates` object in script.js. -/
inductive GameState
  | START
  | WAITING
  | READY
  | RESULT
  | ERROR
  deriving DecidableEq, Repr

/-- A JavaScript value as stored in `startTime`, `reactionTime`, `bestScore`:
either `null`, the number `NaN`, or an integer-valued number. -/
inductive JSVal
  | null
  | nan
  | int (n : Int)
  deriving DecidableEq, Repr

/-- JS truthiness of a `JSVal`: `null`, `NaN` and `0` are falsy. -/
def JSVal.truthy : JSVal → Bool
  | .null => false
  | .nan => false
  | .int n => n != 0

/-- Numeric coercion used by JS arithmetic and relational operators:
`null` coerces to `0`, `NaN` stays non-numeric (`none`). -/
def JSVal.toNumber : JSVal → Option Int
  | .null => some 0
  | .nan => none
  | .int n => some n

/-- The JS `<` operator on these values: any comparison involving `NaN` is
false; `null` coerces to `0`. -/
def JSVal.ltJS (a b : JSVal) : Bool :=
  match a.toNumber, b.toNumber with
  | some x, some y => decide (x < y)
  | _, _ => false

/-- The JS `-` operator applied as `a - b`: `null` coerces to `0`,
any operand `NaN` gives `NaN`. -/
def JSVal.subJS (a b : JSVal) : JSVal :=
  match a.toNumber, b.toNumber with
  | some x, some y => .int (x - y)
  | _, _ => .nan

/-- The characters `parseInt` accepts as decimal digits: `'0'`..`'9'`. -/
def isDigitJS (c : Char) : Bool :=
  decide (48 ≤ c.toNat ∧ c.toNat ≤ 57)

/-- The JS whitespace characters `parseInt` skips (the ones relevant here):
space, tab, line feed, carriage return. -/
def isWsJS (c : Char) : Bool :=
  decide (c.toNat = 32 ∨ c.toNat = 9 ∨ c.toNat = 10 ∨ c.toNat = 13)

/-- Reading a digit character back as a number, as `parseInt` does. -/
def digitVal (c : Char) : Nat := c.toNat - 48

/-- Value of a list of digit characters read left to right in base 10. -/
def digitsToNat (cs : List Char) : Nat :=
  cs.foldl (fun a c => a * 10 + digitVal c) 0

/-- Model of the JS global `parseInt` (radix 10 / non-hex inputs, which are
the only inputs the script ever stores): skip leading whitespace, accept an
optional sign, read the longest run of leading decimal digits; `NaN` when
there is none. -/
def parseIntJS (s : String) : JSVal :=
  match s.data.dropWhile isWsJS with
  | [] => .nan
  | c :: rest =>
    if c = '-' then
      let ds := rest.takeWhile isDigitJS
      if ds.isEmpty then .nan else .int (-(digitsToNat ds : Int))
    else if c = '+' then
      let ds := rest.takeWhile isDigitJS
      if ds.isEmpty then .nan else .int (digitsToNat ds)
    else
      let ds := (c :: rest).takeWhile isDigitJS
      if ds.isEmpty then .nan else .int (digitsToNat ds)

/-- Decimal digit characters of `n`, most significant first.  The first
argument is structural fuel; `fuel = n` is always enough since the argument
divides by ten at each step. -/
def natDigitsAux : Nat → Nat → List Char
  | 0, _ => []
  | _ + 1, 0 => []
  | fuel + 1, n + 1 =>
    natDigitsAux fuel ((n + 1) / 10) ++ [Nat.digitChar ((n + 1) % 10)]

/-- Decimal string of a natural number (`(0).toString()` is `"0"`). -/
def natToString (n : Nat) : String :=
  if n = 0 then "0" else String.mk (natDigitsAux n n)

/-- Model of JS `Number.prototype.toString()` on integer values: decimal
digits with a leading `-` for negative numbers. -/
def jsToString (v : Int) : String :=
  if v < 0 then "-" ++ natToString v.natAbs else natToString v.natAbs

/-- `toString()` on the values a `JSVal` can hold. -/
def jsValToString : JSVal → String
  | .null => "null"
  | .nan => "NaN"
  | .int n => jsToString n

/-- Which of the two `setTimeout` call sites a pending timer came from:
the randomized pre-trigger delay of `startGame`, or the 3000 ms auto-reset
scheduled by `updateUI` on entering the error state. -/
inductive CallbackKind
  | trigger
  | autoReset
  deriving DecidableEq, Repr

/-- A pending `setTimeout` registration: its numeric handle, which callback
it runs, and its delay in milliseconds. -/
structure Timer where
  id : Nat
  kind : CallbackKind
  delay : Nat
  deriving DecidableEq, Repr

/-- The mutable state of the page: the fields of the `ReactionGame` instance
(`currentState`, `startTime`, `reactionTime`, `waitTimeout`, `bestScore`),
the `localStorage` slot `reactionGameBestScore`, the set of pending timers
with the next fresh handle (browser handles are positive, so `nextId` starts
at 1), and the `console.error` diagnostics emitted so far. -/
structure World where
  currentState : GameState
  startTime : JSVal
  reactionTime : JSVal
  waitTimeout : Option Nat
  bestScore : JSVal
  storage : Option String
  pending : List Timer
  nextId : Nat
  errorLog : List String
  deriving DecidableEq, Repr

/-- `ReactionGame.loadBestScore`: `const saved = localStorage.getItem(...);
return saved ? parseInt(saved) : null;` — a missing slot (`null`) and the
empty string are falsy and give `null`; otherwise `parseInt` runs (which
yields `NaN` on text with no leading integer). -/
def loadBestScore (slot : Option String) : JSVal :=
  match slot with
  | none => .null
  | some saved => if saved = "" then .null else parseIntJS saved

/-- `ReactionGame.saveBestScore`: write `score.toString()` to the storage
slot and cache the score in the `bestScore` field. -/
def saveBestScore (w : World) (score : JSVal) : World :=
  { w with storage := some (jsValToString score), bestScore := score }

/-- `clearTimeout(h)`: remove the pending timer with handle `h`, if any;
a no-op on fired or already-cleared handles. -/
def clearTimeoutJS (w : World) (h : Nat) : World :=
  { w with pending := w.pending.filter (fun t => decide (t.id ≠ h)) }

/-- `setTimeout(cb, d)`: register a fresh timer and return its handle. -/
def scheduleTimer (w : World) (k : CallbackKind) (d : Nat) : World × Nat :=
  ({ w with pending := w.pending ++ [⟨w.nextId, k, d⟩], nextId := w.nextId + 1 },
   w.nextId)

/-- The state-dependent part of `ReactionGame.updateUI` that is logic rather
than rendering: entering the error state runs `setTimeout(() =>
this.resetGame(), 3000)` whose handle is discarded (not stored in
`waitTimeout`).  All other branches only touch the DOM. -/
def updateUI (w : World) : World :=
  match w.currentState with
  | .ERROR => (scheduleTimer w .autoReset 3000).1
  | _ => w

/-- `ReactionGame.setState`: record the new state (the CSS class juggling is
rendering) and run `updateUI`. -/
def setState (w : World) (s : GameState) : World :=
  updateUI { w with currentState := s }

/-- `ReactionGame.startGame`: clear the timer referenced by `waitTimeout` if
the handle is truthy, enter the waiting state, then schedule the trigger
after `waitTime` ms and store its handle in `waitTimeout`.  `waitTime` is
`Math.random() * 2000 + 1000` in the script; it is a parameter here. -/
def startGame (w : World) (waitTime : Nat) : World :=
  let w1 := match w.waitTimeout with
    | some h => clearTimeoutJS w h
    | none => w
  let w2 := setState w1 .WAITING
  let p := scheduleTimer w2 .trigger waitTime
  { p.1 with waitTimeout := some p.2 }

/-- The body of the `setTimeout` callback created in `startGame`: only if
the machine is still in the waiting state, record `startTime = Date.now()`
and enter the ready state.  `now` is the `Date.now()` reading at fire
time. -/
def triggerCallback (w : World) (now : Int) : World :=
  if w.currentState = .WAITING then
    setState { w with startTime := .int now } .READY
  else w

/-- `ReactionGame.handleEarlyClick`: clear and null out `waitTimeout`, then
enter the error state (which schedules the untracked auto-reset timer). -/
def handleEarlyClick (w : World) : World :=
  let w1 := match w.waitTimeout with
    | some h => { clearTimeoutJS w h with waitTimeout := none }
    | none => w
  setState w1 .ERROR

/-- `ReactionGame.handleReactionClick`: if `startTime` is falsy, log the
`console.error` diagnostic and return; otherwise compute
`reactionTime = Date.now() - startTime`, save a new best score when
`!this.bestScore || this.reactionTime < this.bestScore`, and enter the
result state (`showResult` is rendering).  `now` is the `Date.now()`
reading at click time. -/
def handleReactionClick (w : World) (now : Int) : World :=
  if w.startTime.truthy = false then
    { w with errorLog := w.errorLog ++ ["開始時間未設定"] }
  else
    let w1 := { w with reactionTime := JSVal.subJS (.int now) w.startTime }
    let isNewRecord := !w1.bestScore.truthy || JSVal.ltJS w1.reactionTime w1.bestScore
    let w2 := if isNewRecord then saveBestScore w1 w1.reactionTime else w1
    setState w2 .RESULT

/-- `ReactionGame.handleBodyClick`: ignore clicks on buttons; otherwise
dispatch on the current state — waiting clicks are early, ready clicks are
reactions, anything else falls through the `switch` unchanged. -/
def handleBodyClick (w : World) (targetIsButton : Bool) (now : Int) : World :=
  if targetIsButton then w
  else
    match w.currentState with
    | .WAITING => handleEarlyClick w
    | .READY => handleReactionClick w now
    | _ => w

/-- `ReactionGame.resetGame`: clear and null out `waitTimeout` if truthy,
null out `startTime` and `reactionTime`, and return to the start state. -/
def resetGame (w : World) : World :=
  let w1 := match w.waitTimeout with
    | some h => { clearTimeoutJS w h with waitTimeout := none }
    | none => w
  let w2 := { w1 with startTime := JSVal.null, reactionTime := JSVal.null }
  setState w2 .START

/-- The browser firing the timeout with handle `h`: if it is still pending
it is removed from the pending set and its callback runs (the `startGame`
trigger closure, or the auto-reset closure which calls `resetGame`). -/
def fireTimer (w : World) (h : Nat) (now : Int) : World :=
  match w.pending.find? (fun t => t.id == h) with
  | none => w
  | some t =>
    let w1 := clearTimeoutJS w h
    match t.kind with
    | .trigger => triggerCallback w1 now
    | .autoReset => resetGame w1

/-- The external events the page reacts to: the start button (`startGame`,
with the randomized delay chosen by the environment), the play-again button
(`resetGame`), a click on the surface (a non-button target, with the
`Date.now()` reading), and a scheduled timeout firing.  Clicks landing on
buttons are filtered out by `handleBodyClick` before reaching the machine. -/
inductive Event
  | startClicked (waitTime : Nat)
  | playAgainClicked
  | surfaceClicked (now : Int)
  | timerFires (h : Nat) (now : Int)
  deriving DecidableEq, Repr

/-- One step of the single-threaded event loop. -/
def step (w : World) : Event → World
  | .startClicked d => startGame w d
  | .playAgainClicked => resetGame w
  | .surfaceClicked now => handleBodyClick w false now
  | .timerFires h now => fireTimer w h now

/-- Processing a list of events in arrival order. -/
def run (w : World) (es : List Event) : World :=
  es.foldl step w

/-- The `ReactionGame` constructor plus `init`: all value fields start at
`null`, the best score is loaded from storage, no timer is pending, and
`setState(GameStates.START)` runs (a no-op beyond rendering). -/
def initWorld (slot : Option String) : World :=
  setState
    { currentState := .START
      startTime := .null
      reactionTime := .null
      waitTimeout := none
      bestScore := loadBestScore slot
      storage := slot
      pending := []
      nextId := 1
      errorLog := [] }
    .START

/-- `ReactionGame.getResultMessage`: rate the time with exclusive upper
bounds 200 / 300 / 500 and append the fixed new-record notice when
`isNewRecord`.  A plain function: pure and deterministic. -/
def getResultMessage (time : Int) (isNewRecord : Bool) : String :=
  let message :=
    if time < 200 then "🚀 超快反應！"
    else if time < 300 then "⚡ 反應很棒！"
    else if time < 500 then "👍 表現不錯！"
    else "🐌 還有進步空間"
  let message := if isNewRecord then message ++ "\n🎉 新紀錄！" else message
  message

/-- A loaded best score "reports absent" when it is not an integer: the
script yields `null` for a missing slot or empty string and `NaN` for
unparseable text, and every consumer (`!this.bestScore`, the `<`
comparison, the display ternary) treats both alike as "no score". -/
def JSVal.isAbsent : JSVal → Bool
  | .int _ => false
  | _ => true

/-- Whether a string is parseable by `parseInt`: after optional leading
whitespace and an optional sign there is at least one decimal digit. -/
def hasLeadingIntText (s : String) : Bool :=
  match s.data.dropWhile isWsJS with
  | [] => false
  | c :: rest =>
    if c = '-' then !(rest.takeWhile isDigitJS).isEmpty
    else if c = '+' then !(rest.takeWhile isDigitJS).isEmpty
    else !((c :: rest).takeWhile isDigitJS).isEmpty

/-- Every pending trigger-class timer is the one the `waitTimeout` field
references, and it can only be pending while the machine waits. -/
def TriggerTracked (w : World) : Prop :=
  ∀ t ∈ w.pending, t.kind = .trigger →
    w.currentState = .WAITING ∧ w.waitTimeout = some t.id

/-- The reachable-state invariant on the handle field: `waitTimeout` is
null in the start and error states; it is non-null in the ready and result
states (the trigger callback and the reaction handler never clear it, so
the fired handle is retained); in the waiting state it references a live
pending trigger timer; and a trigger timer can be pending only while
waiting. -/
def Inv (w : World) : Prop :=
  (w.currentState = .START → w.waitTimeout = none) ∧
  (w.currentState = .ERROR → w.waitTimeout = none) ∧
  (w.currentState = .READY → w.waitTimeout.isSome = true) ∧
  (w.currentState = .RESULT → w.waitTimeout.isSome = true) ∧
  (w.currentState = .WAITING →
    ∃ h d, w.waitTimeout = some h ∧ Timer.mk h .trigger d ∈ w.pending) ∧
  TriggerTracked w

/-! ### Basic facts about `setState` -/

@[simp]
theorem setState_currentState (w : World) (s : GameState) :
    (setState w s).currentState = s := by
  cases s <;> rfl

@[simp]
theorem setState_startTime (w : World) (s : GameState) :
    (setState w s).startTime = w.startTime := by
  cases s <;> rfl

@[simp]
theorem setState_reactionTime (w : World) (s : GameState) :
    (setState w s).reactionTime = w.reactionTime := by
  cases s <;> rfl

@[simp]
theorem setState_waitTimeout (w : World) (s : GameState) :
    (setState w s).waitTimeout = w.waitTimeout := by
  cases s <;> rfl

@[simp]
theorem setState_bestScore (w : World) (s : GameState) :
    (setState w s).bestScore = w.bestScore := by
  cases s <;> rfl

@[simp]
theorem setState_storage (w : World) (s : GameState) :
    (setState w s).storage = w.storage := by
  cases s <;> rfl

@[simp]
theorem setState_errorLog (w : World) (s : GameState) :
    (setState w s).errorLog = w.errorLog := by
  cases s <;> rfl

theorem setState_pending_of_ne_error (w : World) (s : GameState)
    (h : s ≠ GameState.ERROR) : (setState w s).pending = w.pending := by
  cases s <;> first | rfl | exact absurd rfl h

/-- C1: a `surfaceClicked` processed while the machine is in the waiting
state always moves it to the error state (never to ready), and the trigger
callback, run afterwards at any clock reading, acts only when the state is
still waiting and therefore leaves the resulting world completely
unchanged. -/
theorem c1_early_click_wins_race (w : World) (now now2 : Int)
    (hw : w.currentState = GameState.WAITING) :
    (handleBodyClick w false now).currentState = GameState.ERROR ∧
    triggerCallback (handleBodyClick w false now) now2 = handleBodyClick w false now := by
  have hb : handleBodyClick w false now = handleEarlyClick w := by
    simp [handleBodyClick, hw]
  have herr : (handleEarlyClick w).currentState = GameState.ERROR := by
    unfold handleEarlyClick
    cases h : w.waitTimeout <;> simp
  rw [hb]
  refine ⟨herr, ?_⟩
  rw [triggerCallback, herr]
  simp

/-- Closed instance of `c1_early_click_wins_race`: the session that just
started waiting. -/
theorem c1_early_click_wins_race_witness :
    (handleBodyClick (run (initWorld none) [Event.startClicked 1500]) false 900).currentState
      = GameState.ERROR :=
  (c1_early_click_wins_race (run (initWorld none) [Event.startClicked 1500]) 900 2000
    (by decide)).1

/-- C2: a click processed in the ready state with a recorded (truthy)
`startTime = t0`, at clock reading `now ≥ t0`, transitions to the result
state with `reactionTime = now - t0 ≥ 0`. -/
theorem c2_reaction_time_correct (w : World) (now t0 : Int)
    (h1 : w.currentState = GameState.READY) (h2 : w.startTime = JSVal.int t0)
    (h3 : t0 ≠ 0) (h4 : t0 ≤ now) :
    (handleBodyClick w false now).currentState = GameState.RESULT ∧
    (handleBodyClick w false now).reactionTime = JSVal.int (now - t0) ∧
    0 ≤ now - t0 := by
  have hb : handleBodyClick w false now = handleReactionClick w now := by
    simp [handleBodyClick, h1]
  have ht : w.startTime.truthy = true := by
    rw [h2]
    simp [JSVal.truthy]
    exact h3
  rw [hb]
  unfold handleReactionClick
  rw [ht]
  refine ⟨?_, ?_, by omega⟩
  · simp only [Bool.true_eq_false, if_false]
    split <;> simp [saveBestScore]
  · simp only [Bool.true_eq_false, if_false]
    split <;> simp [saveBestScore, h2, JSVal.subJS, JSVal.toNumber]

/-- Closed instance of `c2_reaction_time_correct`: trigger at 1000, click
at 1234. -/
theorem c2_reaction_time_correct_witness :
    (handleBodyClick (run (initWorld none) [Event.startClicked 1500, Event.timerFires 1 1000])
        false 1234).reactionTime = JSVal.int 234 :=
  (c2_reaction_time_correct
    (run (initWorld none) [Event.startClicked 1500, Event.timerFires 1 1000]) 1234 1000
    (by decide) (by decide) (by decide) (by decide)).2.1

/-- C4: `getResultMessage` rates a time below 200 as ultra-fast, in
[200, 300) as great, in [300, 500) as good, and at 500 or above as
room-to-improve, and appends the fixed new-record notice exactly when
`isNewRecord` is true. -/
theorem c4_result_message (t : Int) (r : Bool) :
    (t < 200 →
      getResultMessage t r = "🚀 超快反應！" ++ (if r then "\n🎉 新紀錄！" else "")) ∧
    (200 ≤ t → t < 300 →
      getResultMessage t r = "⚡ 反應很棒！" ++ (if r then "\n🎉 新紀錄！" else "")) ∧
    (300 ≤ t → t < 500 →
      getResultMessage t r = "👍 表現不錯！" ++ (if r then "\n🎉 新紀錄！" else "")) ∧
    (500 ≤ t →
      getResultMessage t r = "🐌 還有進步空間" ++ (if r then "\n🎉 新紀錄！" else "")) := by
  cases r <;>
    refine ⟨fun ha => ?_, fun ha hb => ?_, fun ha hb => ?_, fun ha => ?_⟩ <;>
    simp only [getResultMessage, if_true, if_false] <;>
    split_ifs <;> first | rfl | omega

/-- Closed instance of `c4_result_message`: 450 ms with a new record falls
in the good bracket and carries the notice. -/
theorem c4_result_message_witness :
    getResultMessage 450 true = "👍 表現不錯！" ++ "\n🎉 新紀錄！" := by
  have h := (c4_result_message 450 true).2.2.1 (by decide) (by decide)
  simpa using h

/-- C8: a click processed in the ready state while `startTime` is falsy is
dropped: the script detects it, records the `console.error` diagnostic, and
changes nothing else — no crash, no transition, no score update. -/
theorem c8_missing_ready_timestamp_dropped (w : World) (now : Int)
    (h0 : w.currentState = GameState.READY) (h1 : w.startTime.truthy = false) :
    handleBodyClick w false now =
      { w with errorLog := w.errorLog ++ ["開始時間未設定"] } := by
  simp [handleBodyClick, h0, handleReactionClick, h1]

/-- Closed instance of `c8_missing_ready_timestamp_dropped` at a ready
world whose `startTime` is null. -/
theorem c8_missing_ready_timestamp_dropped_witness :
    handleBodyClick
      { currentState := GameState.READY, startTime := JSVal.null,
        reactionTime := JSVal.null, waitTimeout := none, bestScore := JSVal.null,
        storage := none, pending := [], nextId := 1, errorLog := [] } false 5 =
      { currentState := GameState.READY, startTime := JSVal.null,
        reactionTime := JSVal.null, waitTimeout := none, bestScore := JSVal.null,
        storage := none, pending := [], nextId := 1, errorLog := ["開始時間未設定"] } :=
  c8_missing_ready_timestamp_dropped _ 5 rfl rfl

/-- C9: a surface click processed in the start, result or error state falls
through the dispatch switch: the whole world — every session field, the
pending timers, the persisted best score, even the diagnostics — is
unchanged. -/
theorem c9_click_ignored_outside_waiting_ready (w : World) (now : Int)
    (h : w.currentState = GameState.START ∨ w.currentState = GameState.RESULT ∨
      w.currentState = GameState.ERROR) :
    handleBodyClick w false now = w := by
  rcases h with h | h | h <;> simp [handleBodyClick, h]

/-- Closed instance of `c9_click_ignored_outside_waiting_ready` at the
initial (start) state. -/
theorem c9_click_ignored_outside_waiting_ready_witness :
    handleBodyClick (initWorld none) false 7 = initWorld none :=
  c9_click_ignored_outside_waiting_ready (initWorld none) 7 (Or.inl (by decide))

/-- C10: a ready-state click whose recorded `startTime` is the clock value
0 hits the falsiness guard and is treated as the missing-timestamp fault:
only the diagnostic is recorded, the state stays ready, and no reaction
time or score is recorded. -/
theorem c10_zero_timestamp_treated_as_missing (w : World) (now : Int)
    (h0 : w.currentState = GameState.READY) (h1 : w.startTime = JSVal.int 0) :
    handleBodyClick w false now =
      { w with errorLog := w.errorLog ++ ["開始時間未設定"] } ∧
    (handleBodyClick w false now).currentState = GameState.READY ∧
    (handleBodyClick w false now).reactionTime = w.reactionTime ∧
    (handleBodyClick w false now).bestScore = w.bestScore ∧
    (handleBodyClick w false now).storage = w.storage := by
  have he : handleBodyClick w false now =
      { w with errorLog := w.errorLog ++ ["開始時間未設定"] } := by
    simp [handleBodyClick, h0, handleReactionClick, h1, JSVal.truthy]
  rw [he]
  exact ⟨rfl, h0, rfl, rfl, rfl⟩

/-- Closed instance of `c10_zero_timestamp_treated_as_missing` at a ready
world with `startTime = 0`. -/
theorem c10_zero_timestamp_treated_as_missing_witness :
    (handleBodyClick
      { currentState := GameState.READY, startTime := JSVal.int 0,
        reactionTime := JSVal.null, waitTimeout := none, bestScore := JSVal.null,
        storage := none, pending := [], nextId := 1, errorLog := [] } false 77).currentState
      = GameState.READY :=
  (c10_zero_timestamp_treated_as_missing _ 77 rfl rfl).2.1

/-! ### Which operations touch the best score -/

@[simp]
theorem startGame_bestScore (w : World) (d : Nat) :
    (startGame w d).bestScore = w.bestScore := by
  unfold startGame
  cases h : w.waitTimeout <;> simp [h, clearTimeoutJS, scheduleTimer]

@[simp]
theorem startGame_storage (w : World) (d : Nat) :
    (startGame w d).storage = w.storage := by
  unfold startGame
  cases h : w.waitTimeout <;> simp [h, clearTimeoutJS, scheduleTimer]

@[simp]
theorem resetGame_bestScore (w : World) :
    (resetGame w).bestScore = w.bestScore := by
  unfold resetGame
  cases h : w.waitTimeout <;> simp [h, clearTimeoutJS]

@[simp]
theorem resetGame_storage (w : World) :
    (resetGame w).storage = w.storage := by
  unfold resetGame
  cases h : w.waitTimeout <;> simp [h, clearTimeoutJS]

@[simp]
theorem handleEarlyClick_bestScore (w : World) :
    (handleEarlyClick w).bestScore = w.bestScore := by
  unfold handleEarlyClick
  cases h : w.waitTimeout <;> simp [h, clearTimeoutJS]

@[simp]
theorem handleEarlyClick_storage (w : World) :
    (handleEarlyClick w).storage = w.storage := by
  unfold handleEarlyClick
  cases h : w.waitTimeout <;> simp [h, clearTimeoutJS]

@[simp]
theorem triggerCallback_bestScore (w : World) (now : Int) :
    (triggerCallback w now).bestScore = w.bestScore := by
  unfold triggerCallback
  split <;> simp

@[simp]
theorem triggerCallback_storage (w : World) (now : Int) :
    (triggerCallback w now).storage = w.storage := by
  unfold triggerCallback
  split <;> simp

@[simp]
theorem fireTimer_bestScore (w : World) (h : Nat) (now : Int) :
    (fireTimer w h now).bestScore = w.bestScore := by
  unfold fireTimer
  cases hf : w.pending.find? (fun t => t.id == h) with
  | none => simp
  | some t => cases htk : t.kind <;> simp [htk, clearTimeoutJS]

@[simp]
theorem fireTimer_storage (w : World) (h : Nat) (now : Int) :
    (fireTimer w h now).storage = w.storage := by
  unfold fireTimer
  cases hf : w.pending.find? (fun t => t.id == h) with
  | none => simp
  | some t => cases htk : t.kind <;> simp [htk, clearTimeoutJS]

/-- C3 counterexample: a concrete pair of completed sessions after which the
persisted best score strictly increases.  A 0 ms reaction stores best score
0 (text "0"); in the next session the guard `!this.bestScore` sees the falsy
0 and treats it as "no record", so a 300 ms reaction overwrites it with 300
(text "300") — the persisted best is not monotonically non-increasing. -/
theorem c3_counterexample :
    (run (initWorld none)
        [Event.startClicked 1500, Event.timerFires 1 1000,
         Event.surfaceClicked 1000]).bestScore = JSVal.int 0 ∧
    (run (initWorld none)
        [Event.startClicked 1500, Event.timerFires 1 1000,
         Event.surfaceClicked 1000]).storage = some "0" ∧
    (run (initWorld none)
        [Event.startClicked 1500, Event.timerFires 1 1000, Event.surfaceClicked 1000,
         Event.playAgainClicked, Event.startClicked 1200, Event.timerFires 2 5000,
         Event.surfaceClicked 5300]).bestScore = JSVal.int 300 ∧
    (run (initWorld none)
        [Event.startClicked 1500, Event.timerFires 1 1000, Event.surfaceClicked 1000,
         Event.playAgainClicked, Event.startClicked 1200, Event.timerFires 2 5000,
         Event.surfaceClicked 5300]).storage = some "300" := by
  decide

/-- C3 amended: as long as the stored best score is a nonzero integer `b`,
every event either leaves it alone or replaces it (in field and persisted
slot alike) with a strictly better value `b2 ≤ b` — the guard calls `set`
only when the new time is below `b`.  The monotonicity claim fails only
through the falsiness guard: a stored best of 0 (and likewise an absent or
NaN one) counts as "no record" and may be overwritten by a larger value. -/
theorem c3_amended_nonzero_monotone (w : World) (e : Event) (b : Int)
    (hb : w.bestScore = JSVal.int b) (h0 : b ≠ 0) :
    ∃ b2 : Int, (step w e).bestScore = JSVal.int b2 ∧ b2 ≤ b ∧
      ((step w e).storage = w.storage ∨
        (step w e).storage = some (jsToString b2)) := by
  cases e with
  | startClicked d =>
    exact ⟨b, by simp [step, hb], le_refl b, Or.inl (by simp [step])⟩
  | playAgainClicked =>
    exact ⟨b, by simp [step, hb], le_refl b, Or.inl (by simp [step])⟩
  | timerFires h now =>
    exact ⟨b, by simp [step, hb], le_refl b, Or.inl (by simp [step])⟩
  | surfaceClicked now =>
    simp only [step, handleBodyClick, Bool.false_eq_true, if_false]
    cases hs : w.currentState with
    | WAITING =>
      exact ⟨b, by simp [hb], le_refl b, Or.inl (by simp)⟩
    | READY =>
      by_cases htr : w.startTime.truthy = true
      · rcases hst : w.startTime with _ | _ | t0
        · rw [hst] at htr; simp [JSVal.truthy] at htr
        · rw [hst] at htr; simp [JSVal.truthy] at htr
        · rw [hst] at htr
          have hbt : (JSVal.int b).truthy = true := by
            simp [JSVal.truthy, h0]
          by_cases hlt : now - t0 < b
          · refine ⟨now - t0, ?_, by omega, Or.inr ?_⟩ <;>
              simp [handleReactionClick, htr, hst, JSVal.subJS, JSVal.toNumber,
                JSVal.ltJS, hb, hbt, hlt, saveBestScore, jsValToString]
          · refine ⟨b, ?_, le_refl b, Or.inl ?_⟩ <;>
              simp [handleReactionClick, htr, hst, JSVal.subJS, JSVal.toNumber,
                JSVal.ltJS, hb, hbt, hlt, saveBestScore]
      · have htr2 : w.startTime.truthy = false := by
          cases hv : w.startTime.truthy
          · rfl
          · exact absurd hv htr
        refine ⟨b, ?_, le_refl b, Or.inl ?_⟩ <;>
          simp [handleReactionClick, htr2, hb]
    | START => exact ⟨b, hb, le_refl b, Or.inl rfl⟩
    | RESULT => exact ⟨b, hb, le_refl b, Or.inl rfl⟩
    | ERROR => exact ⟨b, hb, le_refl b, Or.inl rfl⟩

/-- Closed instance of `c3_amended_nonzero_monotone`: a 180 ms reaction
against a stored best of 250 lowers it. -/
theorem c3_amended_nonzero_monotone_witness :
    ∃ b2 : Int,
      (step
        { currentState := GameState.READY, startTime := JSVal.int 100,
          reactionTime := JSVal.null, waitTimeout := none, bestScore := JSVal.int 250,
          storage := some "250", pending := [], nextId := 1, errorLog := [] }
        (Event.surfaceClicked 280)).bestScore = JSVal.int b2 ∧ b2 ≤ 250 ∧
      ((step
        { currentState := GameState.READY, startTime := JSVal.int 100,
          reactionTime := JSVal.null, waitTimeout := none, bestScore := JSVal.int 250,
          storage := some "250", pending := [], nextId := 1, errorLog := [] }
        (Event.surfaceClicked 280)).storage = some "250" ∨
       (step
        { currentState := GameState.READY, startTime := JSVal.int 100,
          reactionTime := JSVal.null, waitTimeout := none, bestScore := JSVal.int 250,
          storage := some "250", pending := [], nextId := 1, errorLog := [] }
        (Event.surfaceClicked 280)).storage = some (jsToString b2)) :=
  c3_amended_nonzero_monotone _ (Event.surfaceClicked 280) 250 rfl (by decide)

/-- C5 counterexample: entering the error state schedules the 3000 ms
auto-reset with handle 2, but that handle is never stored in `waitTimeout`
(which is null in the error state), so issuing `reset` does not cancel it —
it is still pending afterwards.  The superseded callback is not a no-op
either: after the player starts a fresh session, the leftover auto-reset
fires, runs `resetGame`, and throws the new waiting session back to the
start state. -/
theorem c5_counterexample :
    (run (initWorld none)
        [Event.startClicked 1500, Event.surfaceClicked 900]).currentState
      = GameState.ERROR ∧
    (run (initWorld none)
        [Event.startClicked 1500, Event.surfaceClicked 900,
         Event.playAgainClicked]).pending = [⟨2, CallbackKind.autoReset, 3000⟩] ∧
    (run (initWorld none)
        [Event.startClicked 1500, Event.surfaceClicked 900, Event.playAgainClicked,
         Event.startClicked 1400]).currentState = GameState.WAITING ∧
    (run (initWorld none)
        [Event.startClicked 1500, Event.surfaceClicked 900, Event.playAgainClicked,
         Event.startClicked 1400, Event.timerFires 2 0]).currentState
      = GameState.START ∧
    (run (initWorld none)
        [Event.startClicked 1500, Event.surfaceClicked 900, Event.playAgainClicked,
         Event.startClicked 1400, Event.timerFires 2 0]).waitTimeout = none := by
  decide

/-- C5 amended: issuing `reset` in the error state cancels nothing: the
auto-reset handle is not tracked by `waitTimeout` (null in the error
state), so `resetGame` leaves the pending timer set unchanged and merely
returns to the start state; the superseded auto-reset callback remains
pending and runs later (re-invoking `resetGame`). -/
theorem c5_amended_reset_cancels_nothing (w : World)
    (_h1 : w.currentState = GameState.ERROR) (h2 : w.waitTimeout = none) :
    (resetGame w).pending = w.pending ∧
    (resetGame w).currentState = GameState.START ∧
    (resetGame w).waitTimeout = none := by
  unfold resetGame
  rw [h2]
  refine ⟨?_, by simp, by simp [h2]⟩
  have := setState_pending_of_ne_error
    { w with startTime := JSVal.null, reactionTime := JSVal.null } GameState.START
    (by intro hcon; cases hcon)
  simpa using this

/-- Closed instance of `c5_amended_reset_cancels_nothing` at the reachable
error world with the auto-reset timer pending. -/
theorem c5_amended_reset_cancels_nothing_witness :
    (resetGame (run (initWorld none)
        [Event.startClicked 1500, Event.surfaceClicked 900])).pending =
      (run (initWorld none)
        [Event.startClicked 1500, Event.surfaceClicked 900]).pending :=
  (c5_amended_reset_cancels_nothing _ (by decide) (by decide)).1

/-- C6 counterexample: once the trigger fires, the machine is in the ready
state but `waitTimeout` still holds the stale fired handle — the field is
not null in the ready (and subsequently result) state, contradicting the
claimed invariant. -/
theorem c6_counterexample :
    (run (initWorld none)
        [Event.startClicked 1500, Event.timerFires 1 1000]).currentState
      = GameState.READY ∧
    (run (initWorld none)
        [Event.startClicked 1500, Event.timerFires 1 1000]).waitTimeout = some 1 := by
  decide

/-! ### Normal forms of the handle-touching operations, and the reachable
invariant `Inv` -/

theorem startGame_eq (w : World) (d : Nat) :
    startGame w d =
      { currentState := GameState.WAITING, startTime := w.startTime,
        reactionTime := w.reactionTime, waitTimeout := some w.nextId,
        bestScore := w.bestScore, storage := w.storage,
        pending := (match w.waitTimeout with
          | some h => w.pending.filter (fun t => decide (t.id ≠ h))
          | none => w.pending) ++ [⟨w.nextId, CallbackKind.trigger, d⟩],
        nextId := w.nextId + 1, errorLog := w.errorLog } := by
  unfold startGame
  cases h : w.waitTimeout <;> simp [h, clearTimeoutJS, setState, updateUI, scheduleTimer]

theorem resetGame_eq (w : World) :
    resetGame w =
      { currentState := GameState.START, startTime := JSVal.null,
        reactionTime := JSVal.null, waitTimeout := none,
        bestScore := w.bestScore, storage := w.storage,
        pending := (match w.waitTimeout with
          | some h => w.pending.filter (fun t => decide (t.id ≠ h))
          | none => w.pending),
        nextId := w.nextId, errorLog := w.errorLog } := by
  unfold resetGame
  cases h : w.waitTimeout <;> simp [h, clearTimeoutJS, setState, updateUI]

theorem handleEarlyClick_eq (w : World) :
    handleEarlyClick w =
      { currentState := GameState.ERROR, startTime := w.startTime,
        reactionTime := w.reactionTime, waitTimeout := none,
        bestScore := w.bestScore, storage := w.storage,
        pending := (match w.waitTimeout with
          | some h => w.pending.filter (fun t => decide (t.id ≠ h))
          | none => w.pending) ++ [⟨w.nextId, CallbackKind.autoReset, 3000⟩],
        nextId := w.nextId + 1, errorLog := w.errorLog } := by
  unfold handleEarlyClick
  cases h : w.waitTimeout <;> simp [h, clearTimeoutJS, setState, updateUI, scheduleTimer]

@[simp]
theorem handleReactionClick_pending (w : World) (now : Int) :
    (handleReactionClick w now).pending = w.pending := by
  unfold handleReactionClick
  split
  · rfl
  · rw [setState_pending_of_ne_error _ _ (by intro hcon; cases hcon)]
    split <;> rfl

@[simp]
theorem handleReactionClick_waitTimeout (w : World) (now : Int) :
    (handleReactionClick w now).waitTimeout = w.waitTimeout := by
  unfold handleReactionClick
  split
  · rfl
  · rw [setState_waitTimeout]
    split <;> rfl

/-- Timers surviving a `clearTimeoutJS` were already pending. -/
theorem mem_pending_of_mem_clear (w : World) (h : Nat) (t : Timer)
    (ht : t ∈ (clearTimeoutJS w h).pending) : t ∈ w.pending ∧ t.id ≠ h := by
  simpa [clearTimeoutJS] using ht

theorem inv_triggerTracked (w : World) (hw : Inv w) : TriggerTracked w :=
  hw.2.2.2.2.2

theorem inv_startGame (w : World) (d : Nat)
    (h4 : ∀ t ∈ w.pending, t.kind = CallbackKind.trigger → w.waitTimeout = some t.id) :
    Inv (startGame w d) := by
  rw [startGame_eq]
  refine ⟨by simp, by simp, by simp, by simp, ?_, ?_⟩
  · intro _
    exact ⟨w.nextId, d, rfl, List.mem_append_right _ (List.mem_singleton.mpr rfl)⟩
  · intro t ht htk
    rcases List.mem_append.mp ht with hin | hnew
    · cases hwt : w.waitTimeout with
      | some h =>
        rw [hwt] at hin
        obtain ⟨hm, hne⟩ := List.mem_filter.mp hin
        have hid := h4 t hm htk
        rw [hwt] at hid
        injection hid with hid
        simp [hid] at hne
      | none =>
        rw [hwt] at hin
        have hid := h4 t hin htk
        rw [hwt] at hid
        cases hid
    · have heq : t = ⟨w.nextId, CallbackKind.trigger, d⟩ := List.mem_singleton.mp hnew
      subst heq
      exact ⟨rfl, rfl⟩

theorem inv_resetGame (w : World)
    (h4 : ∀ t ∈ w.pending, t.kind = CallbackKind.trigger → w.waitTimeout = some t.id) :
    Inv (resetGame w) := by
  rw [resetGame_eq]
  refine ⟨fun _ => rfl, by simp, by simp, by simp, by simp, ?_⟩
  intro t ht htk
  exfalso
  cases hwt : w.waitTimeout with
  | some h =>
    rw [hwt] at ht
    obtain ⟨hm, hne⟩ := List.mem_filter.mp ht
    have hid := h4 t hm htk
    rw [hwt] at hid
    injection hid with hid
    simp [hid] at hne
  | none =>
    rw [hwt] at ht
    have hid := h4 t ht htk
    rw [hwt] at hid
    cases hid

theorem inv_handleEarlyClick (w : World)
    (h4 : ∀ t ∈ w.pending, t.kind = CallbackKind.trigger → w.waitTimeout = some t.id) :
    Inv (handleEarlyClick w) := by
  rw [handleEarlyClick_eq]
  refine ⟨by simp, fun _ => rfl, by simp, by simp, by simp, ?_⟩
  intro t ht htk
  exfalso
  rcases List.mem_append.mp ht with hin | hnew
  · cases hwt : w.waitTimeout with
    | some h =>
      rw [hwt] at hin
      obtain ⟨hm, hne⟩ := List.mem_filter.mp hin
      have hid := h4 t hm htk
      rw [hwt] at hid
      injection hid with hid
      simp [hid] at hne
    | none =>
      rw [hwt] at hin
      have hid := h4 t hin htk
      rw [hwt] at hid
      cases hid
  · have heq : t = ⟨w.nextId, CallbackKind.autoReset, 3000⟩ := List.mem_singleton.mp hnew
    subst heq
    cases htk

theorem inv_handleReactionClick (w : World) (now : Int) (hw : Inv w)
    (hs : w.currentState = GameState.READY) :
    Inv (handleReactionClick w now) := by
  have hno : ∀ t ∈ w.pending, t.kind ≠ CallbackKind.trigger := by
    intro t ht htk
    have := (inv_triggerTracked w hw t ht htk).1
    rw [hs] at this
    cases this
  have hsome : w.waitTimeout.isSome = true := hw.2.2.1 hs
  cases htr : w.startTime.truthy with
  | false =>
    have heq : handleReactionClick w now =
        { w with errorLog := w.errorLog ++ ["開始時間未設定"] } := by
      simp [handleReactionClick, htr]
    rw [heq]
    refine ⟨by simp [hs], by simp [hs], fun _ => hsome, by simp [hs], by simp [hs], ?_⟩
    intro t ht htk
    exact absurd htk (hno t ht)
  | true =>
    have hcur : (handleReactionClick w now).currentState = GameState.RESULT := by
      unfold handleReactionClick
      rw [htr]
      simp only [Bool.true_eq_false, if_false]
      simp
    refine ⟨by rw [hcur]; simp, by rw [hcur]; simp, by rw [hcur]; simp,
      fun _ => by rw [handleReactionClick_waitTimeout]; exact hsome,
      by rw [hcur]; simp, ?_⟩
    intro t ht htk
    rw [handleReactionClick_pending] at ht
    exact absurd htk (hno t ht)

theorem inv_fireTimer (w : World) (h : Nat) (now : Int) (hw : Inv w) :
    Inv (fireTimer w h now) := by
  unfold fireTimer
  cases hf : w.pending.find? (fun t => t.id == h) with
  | none => simpa using hw
  | some t =>
    simp only [hf]
    have htmem : t ∈ w.pending := List.mem_of_find?_eq_some hf
    have htid : t.id = h := by
      have := List.find?_some hf
      simpa using this
    cases htk : t.kind with
    | autoReset =>
      show Inv (resetGame (clearTimeoutJS w h))
      apply inv_resetGame
      intro t2 ht2 ht2k
      obtain ⟨hm2, _⟩ := mem_pending_of_mem_clear w h t2 ht2
      have := (inv_triggerTracked w hw t2 hm2 ht2k).2
      simpa [clearTimeoutJS] using this
    | trigger =>
      obtain ⟨hws, hwt⟩ := inv_triggerTracked w hw t htmem htk
      show Inv (triggerCallback (clearTimeoutJS w h) now)
      have hres : triggerCallback (clearTimeoutJS w h) now =
          { currentState := GameState.READY, startTime := JSVal.int now,
            reactionTime := w.reactionTime, waitTimeout := w.waitTimeout,
            bestScore := w.bestScore, storage := w.storage,
            pending := w.pending.filter (fun t => decide (t.id ≠ h)),
            nextId := w.nextId, errorLog := w.errorLog } := by
        unfold triggerCallback
        simp [clearTimeoutJS, hws, setState, updateUI]
      rw [hres]
      refine ⟨by simp, by simp, fun _ => by simp [hwt], by simp, by simp, ?_⟩
      intro t2 ht2 ht2k
      exfalso
      obtain ⟨hm2, hne2⟩ := mem_pending_of_mem_clear w h t2 (by simpa [clearTimeoutJS] using ht2)
      have hwt2 := (inv_triggerTracked w hw t2 hm2 ht2k).2
      have hsome : some t.id = some t2.id := hwt.symm.trans hwt2
      injection hsome with hideq
      exact hne2 (hideq ▸ htid)

theorem inv_step (w : World) (e : Event) (hw : Inv w) : Inv (step w e) := by
  cases e with
  | startClicked d =>
    exact inv_startGame w d (fun t ht htk => (inv_triggerTracked w hw t ht htk).2)
  | playAgainClicked =>
    exact inv_resetGame w (fun t ht htk => (inv_triggerTracked w hw t ht htk).2)
  | timerFires h now => exact inv_fireTimer w h now hw
  | surfaceClicked now =>
    show Inv (handleBodyClick w false now)
    unfold handleBodyClick
    simp only [Bool.false_eq_true, if_false]
    cases hs : w.currentState with
    | WAITING =>
      exact inv_handleEarlyClick w (fun t ht htk => (inv_triggerTracked w hw t ht htk).2)
    | READY => exact inv_handleReactionClick w now hw hs
    | START => simpa only [hs] using hw
    | RESULT => simpa only [hs] using hw
    | ERROR => simpa only [hs] using hw

theorem inv_initWorld (slot : Option String) : Inv (initWorld slot) := by
  refine ⟨fun _ => rfl, ?_, ?_, ?_, ?_, ?_⟩
  · intro hcon
    simp [initWorld, setState, updateUI] at hcon
  · intro hcon
    simp [initWorld, setState, updateUI] at hcon
  · intro hcon
    simp [initWorld, setState, updateUI] at hcon
  · intro hcon
    simp [initWorld, setState, updateUI] at hcon
  · intro t ht
    simp [initWorld, setState, updateUI] at ht

/-- C6 amended: in every reachable state of the machine, `waitTimeout` is
null in the start and error states, but non-null in the ready and result
states — the trigger callback and the reaction handler never clear it, so
the fired handle is retained; in the waiting state it references a live
pending trigger timer, and any pending trigger timer is exactly the one
`waitTimeout` references (so a live trigger exists only while waiting).
The error auto-reset handle is never stored in `waitTimeout`. -/
theorem c6_amended_handle_invariant (slot : Option String) (es : List Event) :
    Inv (run (initWorld slot) es) := by
  suffices hgen : ∀ w : World, Inv w → Inv (run w es) from
    hgen (initWorld slot) (inv_initWorld slot)
  induction es with
  | nil => exact fun w hw => hw
  | cons e es ih => exact fun w hw => ih (step w e) (inv_step w e hw)

/-! ### Correctness of the `parseInt` / `toString` models and the score
store -/

theorem digitChar_facts (d : Nat) (hd : d < 10) :
    isDigitJS (Nat.digitChar d) = true ∧ digitVal (Nat.digitChar d) = d := by
  interval_cases d <;> exact ⟨by decide, by decide⟩

theorem digitsToNat_append (cs : List Char) (c : Char) :
    digitsToNat (cs ++ [c]) = digitsToNat cs * 10 + digitVal c := by
  simp [digitsToNat, List.foldl_append]

theorem natDigitsAux_spec : ∀ fuel n : Nat, n ≤ fuel →
    digitsToNat (natDigitsAux fuel n) = n ∧
    (∀ c ∈ natDigitsAux fuel n, isDigitJS c = true) ∧
    (n ≠ 0 → natDigitsAux fuel n ≠ []) := by
  intro fuel
  induction fuel with
  | zero =>
    intro n hn
    interval_cases n
    refine ⟨rfl, ?_, ?_⟩
    · intro c hc
      cases hc
    · intro h
      exact absurd rfl h
  | succ fuel ih =>
    intro n hn
    match n with
    | 0 =>
      refine ⟨rfl, ?_, ?_⟩
      · intro c hc
        cases hc
      · intro h
        exact absurd rfl h
    | m + 1 =>
      have hdiv : (m + 1) / 10 ≤ fuel := by
        have := Nat.div_lt_self (Nat.succ_pos m) (by norm_num : 1 < 10)
        omega
      obtain ⟨ih1, ih2, _⟩ := ih ((m + 1) / 10) hdiv
      have hd : (m + 1) % 10 < 10 := Nat.mod_lt _ (by norm_num)
      refine ⟨?_, ?_, ?_⟩
      · simp only [natDigitsAux]
        rw [digitsToNat_append, ih1, (digitChar_facts _ hd).2]
        omega
      · intro c hc
        simp only [natDigitsAux] at hc
        rcases List.mem_append.mp hc with h1 | h2
        · exact ih2 c h1
        · rw [List.mem_singleton.mp h2]
          exact (digitChar_facts _ hd).1
      · intro _
        simp only [natDigitsAux]
        simp

theorem takeWhile_eq_self_of_all (p : Char → Bool) :
    ∀ l : List Char, (∀ c ∈ l, p c = true) → l.takeWhile p = l := by
  intro l
  induction l with
  | nil => intro _; rfl
  | cons c cs ih =>
    intro h
    have hc : p c = true := h c (List.mem_cons_self c cs)
    have hrest := ih (fun x hx => h x (List.mem_cons_of_mem c hx))
    simp [List.takeWhile, hc, hrest]

theorem isDigitJS_props (c : Char) (h : isDigitJS c = true) :
    isWsJS c = false ∧ c ≠ '-' ∧ c ≠ '+' := by
  have hn : 48 ≤ c.toNat ∧ c.toNat ≤ 57 := by simpa [isDigitJS] using h
  refine ⟨?_, ?_, ?_⟩
  · simp only [isWsJS, decide_eq_false_iff_not]
    omega
  · intro hc
    subst hc
    exact absurd hn (by decide)
  · intro hc
    subst hc
    exact absurd hn (by decide)

theorem parseIntJS_natToString (n : Nat) :
    parseIntJS (natToString n) = JSVal.int n := by
  by_cases h0 : n = 0
  · subst h0
    decide
  · obtain ⟨hval, hdig, hne⟩ := natDigitsAux_spec n n (le_refl n)
    rw [natToString, if_neg h0]
    cases hcs : natDigitsAux n n with
    | nil => exact absurd hcs (hne h0)
    | cons c rest =>
      rw [hcs] at hval hdig
      have hcd : isDigitJS c = true := hdig c (List.mem_cons_self c rest)
      obtain ⟨hw, hm, hp⟩ := isDigitJS_props c hcd
      have hdrop : (String.mk (c :: rest)).data.dropWhile isWsJS = c :: rest := by
        show List.dropWhile isWsJS (c :: rest) = c :: rest
        simp [List.dropWhile, hw]
      have htake : (c :: rest).takeWhile isDigitJS = c :: rest :=
        takeWhile_eq_self_of_all isDigitJS (c :: rest) hdig
      unfold parseIntJS
      rw [hdrop]
      dsimp only
      rw [if_neg hm, if_neg hp, htake]
      rw [if_neg (by simp : ¬(c :: rest).isEmpty = true)]
      rw [hval]

theorem jsToString_ne_empty (v : Int) : jsToString v ≠ "" := by
  intro hcon
  have hdata := congrArg String.data hcon
  by_cases hv : v < 0
  · rw [jsToString, if_pos hv] at hdata
    simp [String.data] at hdata
  · rw [jsToString, if_neg hv, natToString] at hdata
    by_cases h0 : v.natAbs = 0
    · rw [if_pos h0] at hdata
      simp [String.data] at hdata
    · rw [if_neg h0] at hdata
      obtain ⟨_, _, hne⟩ := natDigitsAux_spec v.natAbs v.natAbs (le_refl _)
      exact hne h0 (by simpa using hdata)

theorem parseIntJS_jsToString (v : Int) :
    parseIntJS (jsToString v) = JSVal.int v := by
  by_cases hv : v < 0
  · have hna : v.natAbs ≠ 0 := by omega
    obtain ⟨hval, hdig, hne⟩ := natDigitsAux_spec v.natAbs v.natAbs (le_refl _)
    rw [jsToString, if_pos hv, natToString, if_neg hna]
    cases hcs : natDigitsAux v.natAbs v.natAbs with
    | nil => exact absurd hcs (hne hna)
    | cons c rest =>
      rw [hcs] at hval hdig
      have hdata : ("-" ++ String.mk (c :: rest)).data = '-' :: c :: rest := by
        simp [String.data_append]
      have htake : (c :: rest).takeWhile isDigitJS = c :: rest :=
        takeWhile_eq_self_of_all isDigitJS (c :: rest) hdig
      have hdrop : List.dropWhile isWsJS ('-' :: c :: rest) = '-' :: c :: rest := by
        have hwm : isWsJS '-' = false := by decide
        simp [List.dropWhile, hwm]
      unfold parseIntJS
      rw [hdata, hdrop]
      dsimp only
      rw [if_pos rfl, htake]
      rw [if_neg (by simp : ¬(c :: rest).isEmpty = true)]
      rw [hval]
      exact congrArg JSVal.int (by omega)
  · rw [jsToString, if_neg hv, parseIntJS_natToString]
    exact congrArg JSVal.int (by omega)

theorem parseIntJS_eq_nan_of_unparseable (s : String)
    (h : hasLeadingIntText s = false) : parseIntJS s = JSVal.nan := by
  unfold parseIntJS
  unfold hasLeadingIntText at h
  revert h
  cases hd : s.data.dropWhile isWsJS with
  | nil =>
    intro _
    rfl
  | cons c rest =>
    intro h
    dsimp only at h ⊢
    by_cases h1 : c = '-'
    · rw [if_pos h1] at h ⊢
      have he : (rest.takeWhile isDigitJS).isEmpty = true := by simpa using h
      rw [if_pos he]
    · rw [if_neg h1] at h ⊢
      by_cases h2 : c = '+'
      · rw [if_pos h2] at h ⊢
        have he : (rest.takeWhile isDigitJS).isEmpty = true := by simpa using h
        rw [if_pos he]
      · rw [if_neg h2] at h ⊢
        have he : ((c :: rest).takeWhile isDigitJS).isEmpty = true := by simpa using h
        rw [if_pos he]

/-- C7: the score store.  A missing slot loads as `null`; a slot holding
text with no leading integer loads as an absent (non-integer, falsy) value
— `null` for the empty string, `NaN` otherwise; `saveBestScore` writes
exactly the decimal text of the score, and loading it back yields exactly
that integer. -/
theorem c7_store_roundtrip (w : World) (v : Int) (s : String)
    (hu : hasLeadingIntText s = false) :
    loadBestScore none = JSVal.null ∧
    (loadBestScore (some s)).isAbsent = true ∧
    loadBestScore (some (jsToString v)) = JSVal.int v ∧
    (saveBestScore w (JSVal.int v)).storage = some (jsToString v) ∧
    loadBestScore ((saveBestScore w (JSVal.int v)).storage) = JSVal.int v := by
  have hload : loadBestScore (some (jsToString v)) = JSVal.int v := by
    rw [loadBestScore, if_neg (jsToString_ne_empty v)]
    exact parseIntJS_jsToString v
  refine ⟨rfl, ?_, hload, rfl, hload⟩
  rw [loadBestScore]
  by_cases hs : s = ""
  · rw [if_pos hs]
    rfl
  · rw [if_neg hs, parseIntJS_eq_nan_of_unparseable s hu]
    rfl

/-- Closed instance of `c7_store_roundtrip`: the unparseable text `"abc"`
loads as absent, and the score -42 round-trips through the slot. -/
theorem c7_store_roundtrip_witness :
    (loadBestScore (some "abc")).isAbsent = true ∧
    loadBestScore (some (jsToString (-42))) = JSVal.int (-42) :=
  ⟨(c7_store_roundtrip (initWorld none) (-42) "abc" (by decide)).2.1,
   (c7_store_roundtrip (initWorld none) (-42) "abc" (by decide)).2.2.1⟩

end ReactionBlitz
